import Mathlib

/-!
The memray attach hook (`src/memray/_memray/inject.cpp`).

A shallow embedding of the attach/inject worker: `connect_client`, `sendall`,
`recvall`, `Memray_PyErr_ToString`, `run_script_impl`, `run_script`,
`run_client`, `thread_body` and `spawn_client`.

The operating system and the Python runtime are the environment.  Every call
the C++ code makes into them is answered from a `World` value (the return
values the calls will give), and every call is recorded, in program order, as
an `Event`.  A function of the embedding therefore returns its C++ result
together with the trace of calls it made.
-/

namespace Memray

/-- A byte string (`std::string`, `std::string_view`, or a `char` buffer). -/
abbrev Bytes := List UInt8

/-- The bytes of an ASCII literal of the source. -/
def ascii (s : String) : Bytes := s.toList.map (fun c => c.toNat.toUInt8)

/-- What a `const char*` reader sees of a buffer: the bytes before the first
NUL.  This is the conversion `std::string(const char*)` performs, and what
`Py_CompileString` and `std::string::operator=(const char*)` read. -/
def c_str (s : Bytes) : Bytes := s.takeWhile (fun b => b != 0)

/-- How a call of the embedding ends. -/
inductive Outcome (α : Type) where
  /-- the function returned this value -/
  | returned (a : α)
  /-- the environment supplied no further answer while a loop was still
  running: the function has not returned -/
  | blocked
  /-- the C++ behaviour is undefined (`remove_prefix` past the end) -/
  | undefined
  deriving DecidableEq, Repr

/-- What one `::send(fd, buf, length, 0)` call gives back. -/
inductive SendRet where
  /-- `ret >= 0`: that many bytes were accepted -/
  | ok (ret : Nat)
  /-- `ret < 0` with `errno == EINTR` -/
  | eintr
  /-- `ret < 0` with `errno != EINTR` -/
  | fail
  deriving DecidableEq, Repr

/-- What one `::recv(fd, buf, sizeof(buf), 0)` call gives back. -/
inductive RecvRet where
  /-- `ret >= 0`: `ret = bytes.length` and `buf[0..ret)` holds `bytes` -/
  | chunk (bytes : Bytes)
  /-- `ret < 0` with `errno == EINTR` -/
  | eintr
  /-- `ret < 0` with `errno != EINTR` -/
  | fail
  deriving DecidableEq, Repr

/-- A call made by the worker, with its arguments and its answer. -/
inductive Event where
  | getaddrinfo (port : Int) (ok : Bool)
  | socket (ret : Int)
  | connect (fd : Int) (ok : Bool)
  | close (fd : Int)
  | freeaddrinfo
  | recv (fd : Int) (size : Nat) (r : RecvRet)
  | send (fd : Int) (buf : Bytes) (r : SendRet)
  | cerr (msg : String)
  | call_run_script (script : Bytes)
  | Py_IsInit (b : Bool)
  | PyGILState_Ensure
  | PyGILState_Release
  | PyImport_ImportModule (name : String) (ok : Bool)
  | PyDict_New (ok : Bool)
  | PyDict_SetItemString (key : String) (ok : Bool)
  | Py_CompileString (text : Bytes) (filename : String) (ok : Bool)
  | PyEval_EvalCode (ok : Bool)
  | pthread_create (port : Int) (rc : Int)
  | pthread_detach (rc : Int)
  deriving DecidableEq, Repr

/-- A Python exception, as far as `Memray_PyErr_ToString` looks at it. -/
inductive PyExc where
  /-- `PyObject_Repr(val)` returns NULL and sets `raised` -/
  | reprRaises (raised : PyExc)
  /-- `PyObject_Repr(val)` succeeds, `PyUnicode_AsUTF8String` returns NULL and
  sets `raised` -/
  | encodeRaises (raised : PyExc)
  /-- both succeed; `utf8` is the contents of the resulting bytes object -/
  | repr (utf8 : Bytes)
  deriving DecidableEq, Repr

/-- The thread's error indicator: `none` when clear. -/
abbrev ErrIndicator := Option PyExc

/-- The Python runtime as the attach hook meets it.  A step answers `none`
when it succeeds and `some e` when it returns NULL (or non-zero) with the
exception `e` set. -/
structure Host where
  /-- `Py_IsInitialized()` -/
  initialized : Bool
  /-- `PyImport_ImportModule("builtins")` -/
  importBuiltins : Option PyExc
  /-- `PyDict_New()` -/
  dictNew : Option PyExc
  /-- `PyDict_SetItemString(globals, "__builtins__", builtins)` -/
  setItem : Option PyExc
  /-- `Py_CompileString` on the given NUL-terminated text -/
  compile : Bytes → Option PyExc
  /-- `PyEval_EvalCode` of the code object compiled from the given text -/
  eval : Bytes → Option PyExc

/-- One entry of the `getaddrinfo` result list. -/
structure Candidate where
  /-- return value of `::socket` for this address (`-1` on failure) -/
  sockfd : Int
  /-- whether `::connect` on that socket returns something other than `-1` -/
  connects : Bool
  deriving DecidableEq, Repr

/-- Everything the environment will answer during one attach attempt. -/
structure World where
  /-- return code of `pthread_create` -/
  create_rc : Int
  /-- return code of `pthread_detach` -/
  detach_rc : Int
  /-- `getaddrinfo`: `none` when it fails, else the address list -/
  addrs : Option (List Candidate)
  /-- answers to the successive `::recv` calls -/
  recvs : List RecvRet
  /-- the Python runtime -/
  host : Host
  /-- answers to the successive `::send` calls -/
  sends : List SendRet

/-! ## `connect_client` -/

/-- The `for` loop of `connect_client`: returns `some sockfd` when it leaves by
`break` (then `curr_address != nullptr`), `none` when the list is exhausted. -/
def connect_loop : List Candidate → Option Int × List Event
  | [] => (none, [])
  | c :: rest =>
    if c.sockfd = -1 then
      let r := connect_loop rest
      (r.1, Event.socket c.sockfd :: r.2)
    else if c.connects = false then
      let r := connect_loop rest
      (r.1, Event.socket c.sockfd :: Event.connect c.sockfd false :: Event.close c.sockfd :: r.2)
    else
      (some c.sockfd, [Event.socket c.sockfd, Event.connect c.sockfd true])

/-- `int connect_client(int port)`. -/
def connect_client (addrs : Option (List Candidate)) (port : Int) : Int × List Event :=
  match addrs with
  | none =>
    (-1, [Event.getaddrinfo port false,
          Event.cerr "getaddrinfo() failed while trying to attach Memray: "])
  | some all_addresses =>
    let r := connect_loop all_addresses
    let t := Event.getaddrinfo port true :: r.2 ++ [Event.freeaddrinfo]
    match r.1 with
    | none => (-1, t)
    | some sockfd => (sockfd, t)

/-! ## `sendall` -/

/-- The `while (length)` loop of `sendall`.  `data` is the string view and
`length` the counter kept next to it; each `::send` is offered
`&data[0] .. &data[0] + length`.  `length -= ret` is only reached with
`ret <= data.size()`, where the view and the counter agree. -/
def sendall_loop (fd : Int) : List SendRet → Bytes → Nat → Outcome Bool × List Event
  | [], _, length => if length = 0 then (.returned true, []) else (.blocked, [])
  | r :: rest, data, length =>
    if length = 0 then (.returned true, [])
    else
      let ev := Event.send fd (data.take length) r
      match r with
      | .fail => (.returned false, [ev])
      | .eintr =>
        let k := sendall_loop fd rest data length
        (k.1, ev :: k.2)
      | .ok ret =>
        if ret ≤ data.length then
          let k := sendall_loop fd rest (data.drop ret) (length - ret)
          (k.1, ev :: k.2)
        else (.undefined, [ev])

/-- `bool sendall(int fd, std::string_view data)`. -/
def sendall (fd : Int) (data : Bytes) (sends : List SendRet) : Outcome Bool × List Event :=
  sendall_loop fd sends data data.length

/-! ## `recvall` -/

/-- `std::string::clear()`. -/
def clear (_ : Bytes) : Bytes := []

/-- Result of `recvall`: the return value, `*data`, and the calls made. -/
structure RecvResult where
  ret : Outcome Bool
  data : Bytes
  trace : List Event
  deriving DecidableEq, Repr

/-- The `while (true)` loop of `recvall`. -/
def recvall_loop (fd : Int) : List RecvRet → Bytes → RecvResult
  | [], data => ⟨.blocked, data, []⟩
  | r :: rest, data =>
    let ev := Event.recv fd 4096 r
    match r with
    | .fail => ⟨.returned false, data, [ev]⟩
    | .eintr =>
      let k := recvall_loop fd rest data
      ⟨k.ret, k.data, ev :: k.trace⟩
    | .chunk bytes =>
      if 0 < bytes.length then
        let k := recvall_loop fd rest (data ++ bytes)
        ⟨k.ret, k.data, ev :: k.trace⟩
      else ⟨.returned true, data, [ev]⟩

/-- `bool recvall(int fd, std::string* data)`; the second argument is the
content of `*data` on entry. -/
def recvall (fd : Int) (data : Bytes) (recvs : List RecvRet) : RecvResult :=
  recvall_loop fd recvs (clear data)

/-! ## The error indicator -/

/-- `PyErr_Occurred()`. -/
def PyErr_Occurred (ind : ErrIndicator) : Bool := ind.isSome

/-- `PyErr_Clear()`. -/
def PyErr_Clear (_ : ErrIndicator) : ErrIndicator := none

/-- `PyErr_Fetch` (followed by `PyErr_NormalizeException`): hands out the
pending exception and clears the indicator. -/
def PyErr_Fetch (ind : ErrIndicator) : Option PyExc × ErrIndicator := (ind, none)

/-- A failing C-API call sets its exception, replacing what was pending. -/
def PyErr_Set (e : PyExc) (_ : ErrIndicator) : ErrIndicator := some e

/-- `std::string Memray_PyErr_ToString()`: the string returned and the error
indicator afterwards. -/
def Memray_PyErr_ToString (ind : ErrIndicator) : Bytes × ErrIndicator :=
  if PyErr_Occurred ind = false then ([], ind)
  else
    match PyErr_Fetch ind with
    | (none, ind1) => ([], ind1)
    | (some val, ind1) =>
      match val with
      | .reprRaises raised =>
        let ind2 := PyErr_Set raised ind1
        (ascii "unknown exception (`repr(exc)` failed)!", PyErr_Clear ind2)
      | .encodeRaises raised =>
        let ind2 := PyErr_Set raised ind1
        (ascii "unknown exception (`repr(exc).encode('utf-8')` failed)!", PyErr_Clear ind2)
      | .repr utf8 => (c_str utf8, ind1)

/-! ## Running the script -/

/-- Result of `run_script_impl` and `run_script`: the return value, `*errmsg`,
the error indicator on return, and the calls made. -/
structure ScriptResult where
  success : Bool
  errmsg : Bytes
  indicator : ErrIndicator
  trace : List Event
  deriving DecidableEq, Repr

/-- The body of `run_script_impl` up to the label `done`: the value of
`success`, the error indicator, and the calls made.  Each `goto done` is an
early return here. -/
def run_script_steps (h : Host) (ind : ErrIndicator) (script : Bytes) :
    Bool × ErrIndicator × List Event :=
  match h.importBuiltins with
  | some e => (false, PyErr_Set e ind, [Event.PyImport_ImportModule "builtins" false])
  | none =>
  match h.dictNew with
  | some e => (false, PyErr_Set e ind,
      [Event.PyImport_ImportModule "builtins" true, Event.PyDict_New false])
  | none =>
  match h.setItem with
  | some e => (false, PyErr_Set e ind,
      [Event.PyImport_ImportModule "builtins" true, Event.PyDict_New true,
       Event.PyDict_SetItemString "__builtins__" false])
  | none =>
  match h.compile (c_str script) with
  | some e => (false, PyErr_Set e ind,
      [Event.PyImport_ImportModule "builtins" true, Event.PyDict_New true,
       Event.PyDict_SetItemString "__builtins__" true,
       Event.Py_CompileString (c_str script) "_memray_attach_hook.py" false])
  | none =>
  match h.eval (c_str script) with
  | some e => (false, PyErr_Set e ind,
      [Event.PyImport_ImportModule "builtins" true, Event.PyDict_New true,
       Event.PyDict_SetItemString "__builtins__" true,
       Event.Py_CompileString (c_str script) "_memray_attach_hook.py" true,
       Event.PyEval_EvalCode false])
  | none => (true, ind,
      [Event.PyImport_ImportModule "builtins" true, Event.PyDict_New true,
       Event.PyDict_SetItemString "__builtins__" true,
       Event.Py_CompileString (c_str script) "_memray_attach_hook.py" true,
       Event.PyEval_EvalCode true])

/-- `bool run_script_impl(const std::string& script, std::string* errmsg)`,
entered with error indicator `ind`. -/
def run_script_impl (h : Host) (ind : ErrIndicator) (script : Bytes) : ScriptResult :=
  let s := run_script_steps h ind script
  let m := Memray_PyErr_ToString s.2.1
  ⟨s.1, m.1, m.2, s.2.2⟩

/-- `bool run_script(const std::string& script, std::string* errmsg)`.  The
thread state `PyGILState_Ensure` creates for the new thread has a clear error
indicator. -/
def run_script (h : Host) (script : Bytes) : ScriptResult :=
  if h.initialized = false then
    ⟨false, ascii "Python is not initialized", none,
     [Event.call_run_script script, Event.Py_IsInit false]⟩
  else
    let r := run_script_impl h none script
    ⟨r.success, r.errmsg, r.indicator,
     [Event.call_run_script script, Event.Py_IsInit true, Event.PyGILState_Ensure]
       ++ r.trace ++ [Event.PyGILState_Release]⟩

/-! ## The worker -/

/-- A run of the worker: whether it returned, and the calls it made. -/
structure ClientRun where
  ret : Outcome Unit
  trace : List Event
  deriving DecidableEq, Repr

/-- The part of `run_client` after `recvall` succeeded with `script`. -/
def run_client_exec (w : World) (sock : Int) (script : Bytes) : ClientRun :=
  let r := run_script w.host (c_str script)
  if r.success = false then
    let s := sendall sock r.errmsg w.sends
    match s.1 with
    | .returned _ => ⟨.returned (), r.trace ++ s.2 ++ [Event.close sock]⟩
    | .blocked => ⟨.blocked, r.trace ++ s.2⟩
    | .undefined => ⟨.undefined, r.trace ++ s.2⟩
  else
    ⟨.returned (), r.trace ++ [Event.close sock]⟩

/-- `void run_client(int arg)`. -/
def run_client (w : World) (arg : Int) : ClientRun :=
  let port := arg
  let c := connect_client w.addrs port
  let sock := c.1
  if sock = -1 then
    ⟨.returned (), c.2 ++ [Event.cerr "memray attach failed!"]⟩
  else
    let rv := recvall sock [] w.recvs
    match rv.ret with
    | .returned false =>
      ⟨.returned (), c.2 ++ rv.trace ++ [Event.cerr "memray attach socket read error!"]⟩
    | .returned true =>
      let x := run_client_exec w sock rv.data
      ⟨x.ret, c.2 ++ rv.trace ++ x.trace⟩
    | .blocked => ⟨.blocked, c.2 ++ rv.trace⟩
    | .undefined => ⟨.undefined, c.2 ++ rv.trace⟩

/-- `void* thread_body(void* arg)`. -/
def thread_body (w : World) (arg : Int) : ClientRun :=
  let rc := w.detach_rc
  let port := arg
  let x := run_client w port
  if rc ≠ 0 then
    ⟨x.ret, Event.pthread_detach rc :: Event.cerr "Failed to detach thread!" :: x.trace⟩
  else
    ⟨x.ret, Event.pthread_detach rc :: x.trace⟩

/-- Result of `spawn_client`: the `const char*` returned (`none` is
`nullptr`), the calls made by the calling thread, and the run of the new
thread when one was created. -/
structure SpawnResult where
  ret : Option String
  caller : List Event
  worker : Option ClientRun
  deriving DecidableEq, Repr

/-- `const char* spawn_client(int port)`. -/
def spawn_client (w : World) (port : Int) : SpawnResult :=
  let rc := w.create_rc
  if rc ≠ 0 then
    ⟨some "Failed to create thread!", [Event.pthread_create port rc], none⟩
  else
    ⟨none, [Event.pthread_create port rc], some (thread_body w port)⟩

/-! ## Reading a trace -/

/-- The bytes the transport accepted during a trace: for every `::send` that
returned `ret >= 0`, the first `ret` bytes of the buffer it was offered. -/
def accepted : List Event → Bytes
  | [] => []
  | Event.send _ buf (.ok ret) :: t => buf.take ret ++ accepted t
  | _ :: t => accepted t

/-- The payload of a list of `::recv` answers, in order. -/
def chunks : List RecvRet → Bytes
  | [] => []
  | .chunk bytes :: t => bytes ++ chunks t
  | _ :: t => chunks t

/-- A `::recv` answer after which `recvall` loops again: a chunk of at least
one byte, or `EINTR`. -/
def RecvRet.continues : RecvRet → Bool
  | .chunk bytes => 0 < bytes.length
  | .eintr => true
  | .fail => false

/-- Number of bytes a `::send` answer accepts (`0` for an error). -/
def SendRet.count : SendRet → Nat
  | .ok ret => ret
  | _ => 0

/-- What `connect_client` does with a candidate it cannot use: a failed
`::socket`, or `::socket`, failed `::connect`, `::close`. -/
def failed_attempt (c : Candidate) : List Event :=
  if c.sockfd = -1 then [Event.socket c.sockfd]
  else [Event.socket c.sockfd, Event.connect c.sockfd false, Event.close c.sockfd]

/-- A candidate for which `::socket` and `::connect` both succeed. -/
def Candidate.usable (c : Candidate) : Bool := c.sockfd != -1 && c.connects

/-- A `::send` call. -/
def Event.isSend : Event → Bool
  | .send _ _ _ => true
  | _ => false

/-- The step of a session an event belongs to, numbered in the order
connect (0), receive (1), enter `run_script` (2), acquire the interpreter lock
(3), execute (4), release (5), send the error (6), close (7), report on
`std::cerr` (8). -/
def Event.stage : Event → Nat
  | .getaddrinfo _ _ => 0
  | .socket _ => 0
  | .connect _ _ => 0
  | .freeaddrinfo => 0
  | .pthread_create _ _ => 0
  | .pthread_detach _ => 0
  | .recv _ _ _ => 1
  | .call_run_script _ => 2
  | .Py_IsInit _ => 2
  | .PyGILState_Ensure => 3
  | .PyImport_ImportModule _ _ => 4
  | .PyDict_New _ => 4
  | .PyDict_SetItemString _ _ => 4
  | .Py_CompileString _ _ _ => 4
  | .PyEval_EvalCode _ => 4
  | .PyGILState_Release => 5
  | .send _ _ _ => 6
  | .close _ => 7
  | .cerr _ => 8

/-- The calls `connect_client` makes. -/
def Event.isConnectStep : Event → Bool
  | .getaddrinfo _ _ => true
  | .socket _ => true
  | .connect _ _ => true
  | .close _ => true
  | .freeaddrinfo => true
  | .cerr _ => true
  | _ => false

/-- The socket a session works on: what `connect_client` returned. -/
def session_sock (w : World) (arg : Int) : Int := (connect_client w.addrs arg).1

/-- The `recvall` call of a session. -/
def session_recv (w : World) (arg : Int) : RecvResult :=
  recvall (session_sock w arg) [] w.recvs

/-- The `run_script` call of a session whose `recvall` succeeded. -/
def session_script (w : World) (arg : Int) : ScriptResult :=
  run_script w.host (c_str (session_recv w arg).data)

/-! ## Concrete sessions -/

/-- A runtime in which every step succeeds. -/
def host_ok : Host := ⟨true, none, none, none, fun _ => none, fun _ => none⟩

/-- A runtime in which the script raises an exception whose `repr` is the
empty string (a class with `__repr__` returning `""`). -/
def host_empty_repr : Host :=
  ⟨true, none, none, none, fun _ => none, fun _ => some (PyExc.repr [])⟩

/-- A session that connects on descriptor 3, receives a nine-byte script and
the close, and runs it under `host_empty_repr`. -/
def world_empty_repr : World :=
  ⟨0, 0, some [⟨3, true⟩], [RecvRet.chunk (ascii "raise E()"), RecvRet.chunk []],
   host_empty_repr, []⟩

/-- A session that connects on descriptor 3 and whose first `::recv` fails. -/
def world_recv_fails : World :=
  ⟨0, 0, some [⟨3, true⟩], [RecvRet.fail], host_ok, []⟩

/-- A session that receives the three bytes `i`, NUL, `j`. -/
def world_nul_script : World :=
  ⟨0, 0, some [⟨3, true⟩], [RecvRet.chunk [105, 0, 106], RecvRet.chunk []], host_ok, []⟩

/-- A session in a process whose runtime is not initialized. -/
def world_not_ready : World :=
  ⟨0, 0, some [⟨3, true⟩], [RecvRet.chunk [105], RecvRet.chunk []],
   ⟨false, none, none, none, fun _ => none, fun _ => none⟩, [SendRet.ok 25]⟩

/-- A session with nobody listening: the only candidate refuses. -/
def world_no_listener : World :=
  ⟨0, 0, some [⟨3, false⟩], [], host_ok, []⟩

/-! # Theorems -/

/-! ## `recvall` and `sendall` -/

theorem recvall_loop_append (fd : Int) (pre tail : List RecvRet)
    (h : ∀ r ∈ pre, r.continues = true) (data : Bytes) :
    recvall_loop fd (pre ++ tail) data =
      ⟨(recvall_loop fd tail (data ++ chunks pre)).ret,
       (recvall_loop fd tail (data ++ chunks pre)).data,
       pre.map (Event.recv fd 4096) ++ (recvall_loop fd tail (data ++ chunks pre)).trace⟩ := by
  induction pre generalizing data with
  | nil => simp [chunks]
  | cons r pre ih =>
    have hr := h r (List.mem_cons_self _ _)
    have ih2 := fun d => ih (fun x hx => h x (List.mem_cons_of_mem _ hx)) d
    cases r with
    | fail => simp [RecvRet.continues] at hr
    | eintr => simp [recvall_loop, ih2, chunks]
    | chunk b =>
      simp only [RecvRet.continues, decide_eq_true_eq] at hr
      simp [recvall_loop, hr, ih2, chunks]

theorem accepted_append (a b : List Event) : accepted (a ++ b) = accepted a ++ accepted b := by
  induction a with
  | nil => simp [accepted]
  | cons e a ih =>
    cases e <;> simp [accepted, ih]
    rename_i fd buf r
    cases r <;> simp [accepted, ih]

theorem sendall_loop_sends (fd : Int) (sends : List SendRet) (d : Bytes) (n : Nat) :
    ∀ e ∈ (sendall_loop fd sends d n).2, ∃ buf r, e = Event.send fd buf r := by
  induction sends generalizing d n with
  | nil => intro e he; by_cases hn : n = 0 <;> simp [sendall_loop, hn] at he
  | cons r rest ih =>
    intro e he
    by_cases hn : n = 0
    · simp [sendall_loop, hn] at he
    · cases r with
      | fail =>
        simp [sendall_loop, hn] at he
        exact ⟨_, _, he⟩
      | eintr =>
        simp [sendall_loop, hn] at he
        rcases he with he | he
        · exact ⟨_, _, he⟩
        · exact ih _ _ e he
      | ok ret =>
        by_cases hr : ret ≤ d.length
        · simp [sendall_loop, hn, hr] at he
          rcases he with he | he
          · exact ⟨_, _, he⟩
          · exact ih _ _ e he
        · simp [sendall_loop, hn, hr] at he
          exact ⟨_, _, he⟩

theorem sendall_loop_offered (fd : Int) (sends : List SendRet) (d : Bytes)
    (pre : List Event) (fd1 : Int) (buf : Bytes) (r : SendRet) (post : List Event)
    (h : (sendall_loop fd sends d d.length).2 = pre ++ Event.send fd1 buf r :: post) :
    accepted pre ++ buf = d := by
  induction sends generalizing d pre with
  | nil => by_cases hn : d.length = 0 <;> simp [sendall_loop, hn] at h
  | cons r0 rest ih =>
    by_cases hn : d.length = 0
    · simp [sendall_loop, hn] at h
    · cases r0 with
      | fail =>
        simp only [sendall_loop, hn, if_false] at h
        cases pre with
        | nil => simp at h; simp [accepted, ← h.1.2.1]
        | cons p pre => simp at h
      | eintr =>
        simp only [sendall_loop, hn, if_false] at h
        cases pre with
        | nil => simp at h; simp [accepted, ← h.1.2.1]
        | cons p pre =>
          simp only [List.cons_append, List.cons.injEq] at h
          have := ih d pre h.2
          rw [← h.1]; simpa [accepted] using this
      | ok ret =>
        by_cases hr : ret ≤ d.length
        · simp only [sendall_loop, hn, hr, if_false, if_true] at h
          cases pre with
          | nil => simp at h; simp [accepted, ← h.1.2.1]
          | cons p pre =>
            simp only [List.cons_append, List.cons.injEq] at h
            have hl : d.length - ret = (d.drop ret).length := by simp
            rw [hl] at h
            have := ih (d.drop ret) pre h.2
            rw [← h.1]
            simp [accepted, List.append_assoc, this]
        · simp only [sendall_loop, hn, hr, if_false] at h
          cases pre with
          | nil => simp at h; simp [accepted, ← h.1.2.1]
          | cons p pre => simp at h

theorem sendall_loop_true (fd : Int) (sends : List SendRet) (d : Bytes)
    (h : (sendall_loop fd sends d d.length).1 = .returned true) :
    accepted (sendall_loop fd sends d d.length).2 = d := by
  induction sends generalizing d with
  | nil =>
    by_cases hn : d.length = 0
    · simp [sendall_loop, hn, accepted]; exact List.length_eq_zero.mp hn
    · simp [sendall_loop, hn] at h
  | cons r0 rest ih =>
    by_cases hn : d.length = 0
    · simp [sendall_loop, hn, accepted]; exact List.length_eq_zero.mp hn
    · cases r0 with
      | fail => simp [sendall_loop, hn] at h
      | eintr =>
        simp only [sendall_loop, hn, if_false] at h ⊢
        simpa [accepted] using ih d h
      | ok ret =>
        by_cases hr : ret ≤ d.length
        · simp only [sendall_loop, hn, hr, if_false, if_true] at h ⊢
          have hl : d.length - ret = (d.drop ret).length := by simp
          rw [hl] at h ⊢
          have hh := ih _ h
          simp only [accepted, hh]
          simp
        · simp [sendall_loop, hn, hr] at h

theorem sendall_loop_fail (fd : Int) (pre rest : List SendRet) (d : Bytes)
    (hp : ∀ r ∈ pre, r ≠ SendRet.fail) (hs : (pre.map SendRet.count).sum < d.length) :
    (sendall_loop fd (pre ++ SendRet.fail :: rest) d d.length).1 = .returned false ∧
    (sendall_loop fd (pre ++ SendRet.fail :: rest) d d.length).2.length = pre.length + 1 := by
  induction pre generalizing d with
  | nil =>
    have hn : d.length ≠ 0 := by simp at hs; omega
    simp [sendall_loop, hn]
  | cons r pre ih =>
    have hp2 : ∀ x ∈ pre, x ≠ SendRet.fail := fun x hx => hp x (List.mem_cons_of_mem _ hx)
    have hr := hp r (List.mem_cons_self _ _)
    simp only [List.map_cons, List.sum_cons] at hs
    have hn : d.length ≠ 0 := by omega
    cases r with
    | fail => exact absurd rfl hr
    | eintr =>
      simp only [SendRet.count, Nat.zero_add] at hs
      simpa [sendall_loop, hn] using ih d hp2 hs
    | ok ret =>
      simp only [SendRet.count] at hs
      have hle : ret ≤ d.length := by omega
      have hl : d.length - ret = (d.drop ret).length := by simp
      have := ih (d.drop ret) hp2 (by simp; omega)
      simp only [List.cons_append, sendall_loop, hn, hle, if_false, if_true, hl]
      simpa using this

theorem sendall_loop_done (fd : Int) (pre rest : List SendRet) (d : Bytes)
    (hp : ∀ r ∈ pre, r ≠ SendRet.fail) (hs : (pre.map SendRet.count).sum = d.length) :
    (sendall_loop fd (pre ++ rest) d d.length).1 = .returned true := by
  induction pre generalizing d with
  | nil =>
    have hn : d.length = 0 := by simpa using hs.symm
    cases rest <;> simp [sendall_loop, hn]
  | cons r pre ih =>
    have hp2 : ∀ x ∈ pre, x ≠ SendRet.fail := fun x hx => hp x (List.mem_cons_of_mem _ hx)
    have hr := hp r (List.mem_cons_self _ _)
    simp only [List.map_cons, List.sum_cons] at hs
    by_cases hn : d.length = 0
    · simp [sendall_loop, hn]
    · cases r with
      | fail => exact absurd rfl hr
      | eintr =>
        simp only [SendRet.count, Nat.zero_add] at hs
        simpa [sendall_loop, hn] using ih d hp2 hs
      | ok ret =>
        simp only [SendRet.count] at hs
        have hle : ret ≤ d.length := by omega
        have hl : d.length - ret = (d.drop ret).length := by simp
        have := ih (d.drop ret) hp2 (by simp; omega)
        simp only [List.cons_append, sendall_loop, hn, hle, if_false, if_true, hl]
        simpa using this

/-- C4: `recvall` discards what the output buffer held, loops over positive
chunks and `EINTR`, returns true at the first zero-length read with the chunks
read so far concatenated in order (nothing when the peer closes at once), and
returns false at the first other error that comes before a zero-length read. -/
theorem recvall_until_close (fd : Int) (old : Bytes) (pre rest : List RecvRet)
    (h : ∀ r ∈ pre, r.continues = true) :
    recvall fd old (pre ++ RecvRet.chunk [] :: rest) =
      ⟨.returned true, chunks pre, (pre ++ [RecvRet.chunk []]).map (Event.recv fd 4096)⟩ ∧
    recvall fd old (pre ++ RecvRet.fail :: rest) =
      ⟨.returned false, chunks pre, (pre ++ [RecvRet.fail]).map (Event.recv fd 4096)⟩ ∧
    recvall fd old (RecvRet.chunk [] :: rest) =
      ⟨.returned true, [], [Event.recv fd 4096 (RecvRet.chunk [])]⟩ := by
  refine ⟨?_, ?_, ?_⟩
  · simp [recvall, clear, recvall_loop_append fd pre _ h, recvall_loop]
  · simp [recvall, clear, recvall_loop_append fd pre _ h, recvall_loop]
  · simp [recvall, clear, recvall_loop]

theorem recvall_until_close_witness :
    recvall 7 [9, 9] ([RecvRet.chunk [1, 2], RecvRet.eintr, RecvRet.chunk [3]]
        ++ RecvRet.chunk [] :: [RecvRet.chunk [4]]) =
      ⟨.returned true, [1, 2, 3],
       [Event.recv 7 4096 (RecvRet.chunk [1, 2]), Event.recv 7 4096 RecvRet.eintr,
        Event.recv 7 4096 (RecvRet.chunk [3]), Event.recv 7 4096 (RecvRet.chunk [])]⟩ :=
  (recvall_until_close 7 [9, 9] [RecvRet.chunk [1, 2], RecvRet.eintr, RecvRet.chunk [3]]
    [RecvRet.chunk [4]] (by decide)).1

/-- C5: `sendall` returns true only when the accepted bytes are exactly
`data`; every `::send` is offered the suffix not yet accepted (so after
`EINTR` the same suffix again); the first error other than `EINTR` met while
bytes remain makes it return false; answers that add up to the whole of
`data` make it return true; and for empty `data` it returns true without a
`::send`. -/
theorem sendall_all_or_nothing (fd : Int) (data : Bytes) (sends : List SendRet) :
    ((sendall fd data sends).1 = .returned true → accepted (sendall fd data sends).2 = data) ∧
    (∀ e ∈ (sendall fd data sends).2, ∃ buf r, e = Event.send fd buf r) ∧
    (∀ pre buf r post, (sendall fd data sends).2 = pre ++ Event.send fd buf r :: post →
      accepted pre ++ buf = data ∧ buf = data.drop (accepted pre).length) ∧
    (∀ pre buf e post,
      (sendall fd data sends).2 = pre ++ Event.send fd buf SendRet.eintr :: e :: post →
      ∃ r, e = Event.send fd buf r) ∧
    (∀ pre rest, sends = pre ++ SendRet.fail :: rest → (∀ r ∈ pre, r ≠ SendRet.fail) →
      (pre.map SendRet.count).sum < data.length →
      (sendall fd data sends).1 = .returned false ∧
      (sendall fd data sends).2.length = pre.length + 1) ∧
    (∀ pre rest, sends = pre ++ rest → (∀ r ∈ pre, r ≠ SendRet.fail) →
      (pre.map SendRet.count).sum = data.length →
      (sendall fd data sends).1 = .returned true) ∧
    sendall fd [] sends = (.returned true, []) := by
  have hoff : ∀ pre buf r post, (sendall fd data sends).2 = pre ++ Event.send fd buf r :: post →
      accepted pre ++ buf = data := fun pre buf r post h =>
    sendall_loop_offered fd sends data pre fd buf r post h
  refine ⟨sendall_loop_true fd sends data, sendall_loop_sends fd sends data _, ?_, ?_, ?_, ?_, ?_⟩
  · intro pre buf r post h
    have := hoff pre buf r post h
    refine ⟨this, ?_⟩
    rw [← this]; simp
  · intro pre buf e post h
    have he : e ∈ (sendall fd data sends).2 := by rw [h]; simp
    obtain ⟨buf2, r2, rfl⟩ := sendall_loop_sends fd sends data _ e he
    have h1 := hoff pre buf _ _ h
    have h2 := hoff (pre ++ [Event.send fd buf SendRet.eintr]) buf2 r2 post (by rw [h]; simp)
    rw [accepted_append] at h2
    simp only [accepted, List.append_nil] at h2
    have : buf2 = buf := List.append_cancel_left (h2.trans h1.symm)
    exact ⟨r2, by rw [this]⟩
  · intro pre rest hs hp hsum
    subst hs
    exact sendall_loop_fail fd pre rest data hp hsum
  · intro pre rest hs hp hsum
    subst hs
    exact sendall_loop_done fd pre rest data hp hsum
  · cases sends <;> simp [sendall, sendall_loop]

theorem sendall_all_or_nothing_witness :
    (sendall 4 [65, 66, 67] [SendRet.ok 1, SendRet.eintr, SendRet.ok 2]).1 = .returned true ∧
    accepted (sendall 4 [65, 66, 67] [SendRet.ok 1, SendRet.eintr, SendRet.ok 2]).2
      = [65, 66, 67] ∧
    (sendall 4 [65, 66, 67] [SendRet.ok 1, SendRet.eintr, SendRet.fail, SendRet.ok 2]).1
      = .returned false :=
  ⟨(sendall_all_or_nothing 4 [65, 66, 67] [SendRet.ok 1, SendRet.eintr, SendRet.ok 2]).2.2.2.2.2.1
      [SendRet.ok 1, SendRet.eintr, SendRet.ok 2] [] (by simp) (by decide) (by decide),
   (sendall_all_or_nothing 4 [65, 66, 67] [SendRet.ok 1, SendRet.eintr, SendRet.ok 2]).1
      (by decide),
   ((sendall_all_or_nothing 4 [65, 66, 67]
      [SendRet.ok 1, SendRet.eintr, SendRet.fail, SendRet.ok 2]).2.2.2.2.1
      [SendRet.ok 1, SendRet.eintr] [SendRet.ok 2] (by simp) (by decide) (by decide)).1⟩

/-! ## `connect_client` -/

theorem connect_loop_none (cs : List Candidate) (h : ∀ c ∈ cs, c.usable = false) :
    connect_loop cs = (none, cs.flatMap failed_attempt) := by
  induction cs with
  | nil => simp [connect_loop]
  | cons c cs ih =>
    have hc := h c (List.mem_cons_self _ _)
    have ih2 := ih (fun x hx => h x (List.mem_cons_of_mem _ hx))
    by_cases h1 : c.sockfd = -1
    · simp [connect_loop, h1, ih2, failed_attempt]
    · have h2 : c.connects = false := by simpa [Candidate.usable, h1] using hc
      simp [connect_loop, h1, h2, ih2, failed_attempt]

theorem connect_loop_first (pre : List Candidate) (c : Candidate) (post : List Candidate)
    (h : ∀ p ∈ pre, p.usable = false) (hc : c.usable = true) :
    connect_loop (pre ++ c :: post) =
      (some c.sockfd,
       pre.flatMap failed_attempt ++ [Event.socket c.sockfd, Event.connect c.sockfd true]) := by
  induction pre with
  | nil =>
    simp only [Candidate.usable, Bool.and_eq_true, bne_iff_ne, ne_eq] at hc
    simp [connect_loop, hc.1, hc.2]
  | cons p pre ih =>
    have hp := h p (List.mem_cons_self _ _)
    have ih2 := ih (fun x hx => h x (List.mem_cons_of_mem _ hx))
    by_cases h1 : p.sockfd = -1
    · simp [connect_loop, h1, ih2, failed_attempt]
    · have h2 : p.connects = false := by simpa [Candidate.usable, h1] using hp
      simp [connect_loop, h1, h2, ih2, failed_attempt]

/-- C6: `connect_client` returns -1 when `getaddrinfo` fails or when no
candidate gets both a socket and a connection; otherwise it returns the socket
of the first candidate, in list order, for which both succeed, and every
earlier candidate whose socket was created and whose `::connect` failed has
had that socket closed right after the failed `::connect`. -/
theorem connect_client_first_usable (port : Int) (cs : List Candidate) :
    (connect_client none port).1 = -1 ∧
    ((∀ c ∈ cs, c.usable = false) →
      connect_client (some cs) port =
        (-1, Event.getaddrinfo port true :: cs.flatMap failed_attempt ++ [Event.freeaddrinfo])) ∧
    (∀ pre c post, cs = pre ++ c :: post → (∀ p ∈ pre, p.usable = false) → c.usable = true →
      connect_client (some cs) port =
        (c.sockfd, Event.getaddrinfo port true :: pre.flatMap failed_attempt ++
          [Event.socket c.sockfd, Event.connect c.sockfd true, Event.freeaddrinfo]) ∧
      c.sockfd ≠ -1 ∧
      ∀ p ∈ pre, p.sockfd ≠ -1 → ∃ a b, (connect_client (some cs) port).2 =
        a ++ [Event.socket p.sockfd, Event.connect p.sockfd false, Event.close p.sockfd] ++ b) := by
  refine ⟨rfl, ?_, ?_⟩
  · intro h
    simp [connect_client, connect_loop_none cs h]
  · intro pre c post hcs hpre hc
    subst hcs
    have heq : connect_client (some (pre ++ c :: post)) port =
        (c.sockfd, Event.getaddrinfo port true :: pre.flatMap failed_attempt ++
          [Event.socket c.sockfd, Event.connect c.sockfd true, Event.freeaddrinfo]) := by
      simp [connect_client, connect_loop_first pre c post hpre hc]
    refine ⟨heq, ?_, ?_⟩
    · simp only [Candidate.usable, Bool.and_eq_true, bne_iff_ne, ne_eq] at hc
      exact hc.1
    · intro p hp hfd
      obtain ⟨s, t, rfl⟩ := List.append_of_mem hp
      refine ⟨Event.getaddrinfo port true :: s.flatMap failed_attempt,
        t.flatMap failed_attempt ++
          [Event.socket c.sockfd, Event.connect c.sockfd true, Event.freeaddrinfo], ?_⟩
      rw [heq]
      simp [failed_attempt, hfd]

theorem connect_client_first_usable_witness :
    connect_client (some ([⟨-1, true⟩, ⟨3, false⟩] ++ (⟨4, true⟩ : Candidate) :: [⟨5, true⟩])) 8000 =
      (4, [Event.getaddrinfo 8000 true, Event.socket (-1), Event.socket 3,
           Event.connect 3 false, Event.close 3, Event.socket 4, Event.connect 4 true,
           Event.freeaddrinfo]) :=
  ((connect_client_first_usable 8000 ([⟨-1, true⟩, ⟨3, false⟩] ++ (⟨4, true⟩ : Candidate) :: [⟨5, true⟩])).2.2
    [⟨-1, true⟩, ⟨3, false⟩] ⟨4, true⟩ [⟨5, true⟩] rfl (by decide) (by decide)).1

/-! ## The error indicator -/

/-- C8: the error indicator is clear after `Memray_PyErr_ToString`, hence after
`run_script_impl` and `run_script`, whatever it was on entry, whichever step
failed, and whether the exception was formatted or one of the two fixed
messages was used. -/
theorem error_indicator_clear (h : Host) (ind : ErrIndicator) (script : Bytes) :
    (Memray_PyErr_ToString ind).2 = none ∧
    (run_script_impl h ind script).indicator = none ∧
    (run_script h script).indicator = none ∧
    (∀ e, Memray_PyErr_ToString (some (PyExc.reprRaises e)) =
      (ascii "unknown exception (`repr(exc)` failed)!", none)) ∧
    (∀ e, Memray_PyErr_ToString (some (PyExc.encodeRaises e)) =
      (ascii "unknown exception (`repr(exc).encode('utf-8')` failed)!", none)) ∧
    (∀ utf8, Memray_PyErr_ToString (some (PyExc.repr utf8)) = (c_str utf8, none)) := by
  have key : ∀ i : ErrIndicator, (Memray_PyErr_ToString i).2 = none := by
    intro i
    cases i with
    | none => rfl
    | some v => cases v <;> rfl
  refine ⟨key ind, key _, ?_, fun _ => rfl, fun _ => rfl, fun _ => rfl⟩
  unfold run_script
  split
  · rfl
  · exact key _

/-! ## What a trace is made of -/

theorem connect_loop_steps (cs : List Candidate) :
    ∀ e ∈ (connect_loop cs).2, e.isConnectStep = true := by
  induction cs with
  | nil => simp [connect_loop]
  | cons c cs ih =>
    intro e he
    by_cases h1 : c.sockfd = -1
    · simp only [connect_loop, h1, if_true, List.mem_cons] at he
      rcases he with rfl | he
      · rfl
      · exact ih e he
    · by_cases h2 : c.connects = false
      · simp only [connect_loop, h1, h2, if_true, if_false, List.mem_cons] at he
        rcases he with rfl | rfl | rfl | he
        · rfl
        · rfl
        · rfl
        · exact ih e he
      · simp [connect_loop, h1, h2] at he
        rcases he with rfl | rfl
        · rfl
        · rfl

theorem connect_client_steps (addrs : Option (List Candidate)) (port : Int) :
    ∀ e ∈ (connect_client addrs port).2, e.isConnectStep = true := by
  intro e he
  cases addrs with
  | none =>
    simp only [connect_client, List.mem_cons, List.not_mem_nil, or_false] at he
    rcases he with rfl | rfl
    · rfl
    · rfl
  | some cs =>
    have hl := connect_loop_steps cs
    have : e ∈ Event.getaddrinfo port true :: (connect_loop cs).2 ++ [Event.freeaddrinfo] := by
      simp only [connect_client] at he
      split at he <;> exact he
    simp only [List.cons_append, List.mem_cons, List.mem_append, List.not_mem_nil,
      or_false] at this
    rcases this with rfl | h | rfl
    · rfl
    · exact hl e h
    · rfl

theorem recvall_loop_recvs (fd : Int) (rs : List RecvRet) (d : Bytes) :
    ∀ e ∈ (recvall_loop fd rs d).trace, ∃ r, e = Event.recv fd 4096 r := by
  induction rs generalizing d with
  | nil => simp [recvall_loop]
  | cons r rs ih =>
    intro e he
    cases r with
    | fail =>
      simp only [recvall_loop, List.mem_singleton] at he
      exact ⟨_, he⟩
    | eintr =>
      simp only [recvall_loop, List.mem_cons] at he
      rcases he with he | he
      · exact ⟨_, he⟩
      · exact ih d e he
    | chunk b =>
      by_cases hb : 0 < b.length
      · simp only [recvall_loop, hb, if_true, List.mem_cons] at he
        rcases he with he | he
        · exact ⟨_, he⟩
        · exact ih _ e he
      · simp only [recvall_loop, hb, if_false, List.mem_singleton] at he
        exact ⟨_, he⟩

theorem run_script_steps_stage (h : Host) (ind : ErrIndicator) (s : Bytes) :
    ∀ e ∈ (run_script_steps h ind s).2.2, e.stage = 4 ∧
      ∀ text f ok, e = Event.Py_CompileString text f ok → text = c_str s := by
  intro e he
  unfold run_script_steps at he
  split at he
  · simp at he; subst he; simp [Event.stage]
  · split at he
    · simp at he; rcases he with rfl | rfl <;> simp [Event.stage]
    · split at he
      · simp at he; rcases he with rfl | rfl | rfl <;> simp [Event.stage]
      · split at he
        · simp at he; rcases he with rfl | rfl | rfl | rfl <;> simp [Event.stage]
        · split at he
          · simp at he; rcases he with rfl | rfl | rfl | rfl | rfl <;> simp [Event.stage]
          · simp at he; rcases he with rfl | rfl | rfl | rfl | rfl <;> simp [Event.stage]

theorem run_client_connected (w : World) (arg : Int) (hc : session_sock w arg ≠ -1)
    (hr : (session_recv w arg).ret = .returned true) :
    run_client w arg =
      ⟨(run_client_exec w (session_sock w arg) (session_recv w arg).data).ret,
       (connect_client w.addrs arg).2 ++ (session_recv w arg).trace ++
         (run_client_exec w (session_sock w arg) (session_recv w arg).data).trace⟩ := by
  simp only [session_sock, session_recv] at hc hr ⊢
  simp only [run_client, hc, if_false, hr]

theorem run_script_steps_fault (h : Host) (ind : ErrIndicator) (s : Bytes)
    (hf : (run_script_steps h ind s).1 = false) :
    ∃ e, (run_script_steps h ind s).2.1 = some e := by
  cases h1 : h.importBuiltins <;> cases h2 : h.dictNew <;> cases h3 : h.setItem <;>
    cases h4 : h.compile (c_str s) <;> cases h5 : h.eval (c_str s) <;>
    simp [run_script_steps, h1, h2, h3, h4, h5, PyErr_Set] at hf ⊢

theorem run_script_trace_stage (h : Host) (s : Bytes) :
    ∀ e ∈ (run_script h s).trace, 2 ≤ e.stage ∧ e.stage ≤ 5 := by
  intro e he
  unfold run_script at he
  split at he
  · simp at he
    rcases he with rfl | rfl <;> simp [Event.stage]
  · simp at he
    rcases he with rfl | rfl | rfl | he | rfl
    · simp [Event.stage]
    · simp [Event.stage]
    · simp [Event.stage]
    · have := (run_script_steps_stage h none s e (by simpa [run_script_impl] using he)).1
      omega
    · simp [Event.stage]

theorem filter_isSend_of_stage (t : List Event) (h : ∀ e ∈ t, e.stage ≠ 6) :
    t.filter Event.isSend = [] := by
  rw [List.filter_eq_nil_iff]
  intro e he hs
  have := h e he
  cases e <;> simp [Event.isSend, Event.stage] at hs this

theorem filter_isSend_connect (addrs : Option (List Candidate)) (port : Int) :
    (connect_client addrs port).2.filter Event.isSend = [] := by
  rw [List.filter_eq_nil_iff]
  intro e he hs
  have := connect_client_steps addrs port e he
  cases e <;> simp [Event.isSend, Event.isConnectStep] at hs this

theorem filter_isSend_recv (fd : Int) (d : Bytes) (rs : List RecvRet) :
    (recvall fd d rs).trace.filter Event.isSend = [] := by
  rw [List.filter_eq_nil_iff]
  intro e he hs
  obtain ⟨r, rfl⟩ := recvall_loop_recvs fd rs _ e he
  simp [Event.isSend] at hs

theorem filter_isSend_script (h : Host) (s : Bytes) :
    (run_script h s).trace.filter Event.isSend = [] :=
  filter_isSend_of_stage _ (fun e he => by have := run_script_trace_stage h s e he; omega)

theorem filter_isSend_sendall (fd : Int) (d : Bytes) (ss : List SendRet) :
    (sendall fd d ss).2.filter Event.isSend = (sendall fd d ss).2 := by
  rw [List.filter_eq_self]
  intro e he
  obtain ⟨b, r, rfl⟩ := sendall_loop_sends fd ss d _ e he
  rfl

theorem errmsg_nil_iff (h : Host) (s : Bytes) (hf : (run_script h s).success = false) :
    (run_script h s).errmsg = [] ↔
      h.initialized = true ∧
      ∃ utf8, (run_script_steps h none s).2.1 = some (PyExc.repr utf8) ∧ c_str utf8 = [] := by
  unfold run_script at hf ⊢
  by_cases hi : h.initialized = false
  · simp [hi, ascii]
  · simp only [hi, if_false, run_script_impl] at hf ⊢
    have hi2 : h.initialized = true := by simpa using hi
    obtain ⟨e, he⟩ := run_script_steps_fault h none s hf
    rw [he]
    cases e with
    | reprRaises r => simp [Memray_PyErr_ToString, PyErr_Occurred, PyErr_Fetch, ascii]
    | encodeRaises r => simp [Memray_PyErr_ToString, PyErr_Occurred, PyErr_Fetch, ascii]
    | repr u => simp [Memray_PyErr_ToString, PyErr_Occurred, PyErr_Fetch, hi2]

/-! ## What the controller receives -/

theorem accepted_filter (t : List Event) : accepted (t.filter Event.isSend) = accepted t := by
  induction t with
  | nil => rfl
  | cons e t ih =>
    cases e <;> simp [List.filter_cons, Event.isSend, accepted, ih]
    rename_i fd buf r
    cases r <;> simp [accepted, ih]

theorem c_str_of_no_nul (p : Bytes) (h : (0 : UInt8) ∉ p) : c_str p = p := by
  unfold c_str
  rw [List.takeWhile_eq_self_iff]
  intro x hx
  have : x ≠ 0 := fun h0 => h (h0 ▸ hx)
  simpa using this

theorem run_client_exec_ok (w : World) (sock : Int) (script : Bytes)
    (hs : (run_script w.host (c_str script)).success = true) :
    run_client_exec w sock script =
      ⟨.returned (), (run_script w.host (c_str script)).trace ++ [Event.close sock]⟩ := by
  simp [run_client_exec, hs]

theorem run_client_exec_failed (w : World) (sock : Int) (script : Bytes)
    (hs : (run_script w.host (c_str script)).success = false) :
    (∀ b, (sendall sock (run_script w.host (c_str script)).errmsg w.sends).1 = .returned b →
      run_client_exec w sock script =
        ⟨.returned (), (run_script w.host (c_str script)).trace ++
          (sendall sock (run_script w.host (c_str script)).errmsg w.sends).2 ++
          [Event.close sock]⟩) ∧
    ∃ k, (k = [] ∨ k = [Event.close sock]) ∧
      (run_client_exec w sock script).trace =
        (run_script w.host (c_str script)).trace ++
          (sendall sock (run_script w.host (c_str script)).errmsg w.sends).2 ++ k := by
  constructor
  · intro b hb
    simp [run_client_exec, hs, hb]
  · simp only [run_client_exec, hs, if_true]
    cases (sendall sock (run_script w.host (c_str script)).errmsg w.sends).1 with
    | returned b => exact ⟨[Event.close sock], Or.inr rfl, rfl⟩
    | blocked => exact ⟨[], Or.inl rfl, by simp⟩
    | undefined => exact ⟨[], Or.inl rfl, by simp⟩

theorem outcome_by_bytes_core (w : World) (arg : Int) (hc : session_sock w arg ≠ -1)
    (hr : (session_recv w arg).ret = .returned true) :
    ((session_script w arg).success = true →
      run_client w arg =
        ⟨.returned (), (connect_client w.addrs arg).2 ++ (session_recv w arg).trace ++
          ((session_script w arg).trace ++ [Event.close (session_sock w arg)])⟩ ∧
      (run_client w arg).trace.filter Event.isSend = []) ∧
    ((session_script w arg).success = false →
      (run_client w arg).trace.filter Event.isSend =
        (sendall (session_sock w arg) (session_script w arg).errmsg w.sends).2 ∧
      (∀ b, (sendall (session_sock w arg) (session_script w arg).errmsg w.sends).1
          = .returned b →
        run_client w arg =
          ⟨.returned (), (connect_client w.addrs arg).2 ++ (session_recv w arg).trace ++
            ((session_script w arg).trace ++
              (sendall (session_sock w arg) (session_script w arg).errmsg w.sends).2 ++
              [Event.close (session_sock w arg)])⟩) ∧
      ((session_script w arg).errmsg = [] ↔
        w.host.initialized = true ∧
        ∃ utf8, (run_script_steps w.host none (c_str (session_recv w arg).data)).2.1
            = some (PyExc.repr utf8) ∧ c_str utf8 = [])) := by
  have hrun := run_client_connected w arg hc hr
  constructor
  · intro hs
    have hx := run_client_exec_ok w (session_sock w arg) (session_recv w arg).data hs
    rw [hx] at hrun
    refine ⟨hrun, ?_⟩
    rw [hrun]
    simp only [List.filter_append, filter_isSend_connect, session_recv, filter_isSend_recv,
      session_script, filter_isSend_script]
    simp [Event.isSend]
  · intro hs
    obtain ⟨hret, k, hk, htr⟩ :=
      run_client_exec_failed w (session_sock w arg) (session_recv w arg).data hs
    refine ⟨?_, ?_, errmsg_nil_iff _ _ hs⟩
    · rw [hrun]
      simp only [htr, List.filter_append, filter_isSend_connect]
      simp only [session_recv, filter_isSend_recv, session_script, filter_isSend_script,
        filter_isSend_sendall]
      rcases hk with rfl | rfl <;> simp [Event.isSend]
    · intro b hb
      rw [hrun, hret b hb]
      rfl

/-- C1 as the code has it: in a session that connected and whose `recvall`
succeeded, a successful `run_script` is followed by the close and by no
`::send` at all; a failed one is followed by the `::send` calls of exactly one
`sendall` of the error text, then (once `sendall` returns) the close.  The
error text is empty exactly when the runtime is initialized and the exception
left by the failing step has a `repr` whose UTF-8 bytes are empty or begin
with a NUL. -/
theorem outcome_by_bytes (w : World) (arg : Int) (hc : session_sock w arg ≠ -1)
    (hr : (session_recv w arg).ret = .returned true) :
    ((session_script w arg).success = true →
      run_client w arg =
        ⟨.returned (), (connect_client w.addrs arg).2 ++ (session_recv w arg).trace ++
          ((session_script w arg).trace ++ [Event.close (session_sock w arg)])⟩ ∧
      (run_client w arg).trace.filter Event.isSend = []) ∧
    ((session_script w arg).success = false →
      (run_client w arg).trace.filter Event.isSend =
        (sendall (session_sock w arg) (session_script w arg).errmsg w.sends).2 ∧
      (∀ b, (sendall (session_sock w arg) (session_script w arg).errmsg w.sends).1
          = .returned b →
        run_client w arg =
          ⟨.returned (), (connect_client w.addrs arg).2 ++ (session_recv w arg).trace ++
            ((session_script w arg).trace ++
              (sendall (session_sock w arg) (session_script w arg).errmsg w.sends).2 ++
              [Event.close (session_sock w arg)])⟩) ∧
      ((session_script w arg).errmsg = [] ↔
        w.host.initialized = true ∧
        ∃ utf8, (run_script_steps w.host none (c_str (session_recv w arg).data)).2.1
            = some (PyExc.repr utf8) ∧ c_str utf8 = [])) :=
  outcome_by_bytes_core w arg hc hr

theorem outcome_by_bytes_witness :
    (run_client world_not_ready 0).trace.filter Event.isSend =
      (sendall (session_sock world_not_ready 0) (session_script world_not_ready 0).errmsg
        world_not_ready.sends).2 :=
  ((outcome_by_bytes world_not_ready 0 (by decide) (by decide)).2 (by decide)).1

/-- C1 as stated fails: the script raises an exception whose `repr` is empty,
`run_script` returns false with an empty error text, and the run writes no
byte before closing, exactly as a successful run does. -/
theorem empty_error_text_unsent :
    session_sock world_empty_repr 0 ≠ -1 ∧
    (session_recv world_empty_repr 0).ret = .returned true ∧
    (session_script world_empty_repr 0).success = false ∧
    (session_script world_empty_repr 0).errmsg = [] ∧
    (run_client world_empty_repr 0).ret = .returned () ∧
    (run_client world_empty_repr 0).trace.filter Event.isSend = [] := by
  decide

/-- C2 fails on the `recvall` failure path: the session connects on
descriptor 3, the first `::recv` fails, and `run_client` returns after the
`std::cerr` report without any `::close`. -/
theorem recv_failure_leaks_socket :
    session_sock world_recv_fails 0 = 3 ∧
    (session_recv world_recv_fails 0).ret = .returned false ∧
    run_client world_recv_fails 0 =
      ⟨.returned (),
       [Event.getaddrinfo 0 true, Event.socket 3, Event.connect 3 true, Event.freeaddrinfo,
        Event.recv 3 4096 RecvRet.fail, Event.cerr "memray attach socket read error!"]⟩ ∧
    (run_client world_recv_fails 0).trace.count (Event.close 3) = 0 := by
  decide

/-- C3 as stated fails: `recvall` accumulates the three bytes `i`, NUL, `j`,
and both `run_script` and the compiler are handed the single byte `i`. -/
theorem nul_truncates_script :
    session_sock world_nul_script 0 ≠ -1 ∧
    (session_recv world_nul_script 0).ret = .returned true ∧
    (session_recv world_nul_script 0).data = [105, 0, 106] ∧
    Event.call_run_script [105] ∈ (run_client world_nul_script 0).trace ∧
    Event.call_run_script [105, 0, 106] ∉ (run_client world_nul_script 0).trace ∧
    Event.Py_CompileString [105] "_memray_attach_hook.py" true
      ∈ (run_client world_nul_script 0).trace ∧
    Event.Py_CompileString [105, 0, 106] "_memray_attach_hook.py" true
      ∉ (run_client world_nul_script 0).trace := by
  decide

theorem c_str_idem (p : Bytes) : c_str (c_str p) = c_str p := by
  unfold c_str
  rw [List.takeWhile_eq_self_iff]
  intro x hx
  exact List.mem_takeWhile_imp (p := fun b => b != 0) hx

theorem mem_run_script_trace (h : Host) (s : Bytes) (e : Event)
    (he : e ∈ (run_script h s).trace) :
    e = Event.call_run_script s ∨ e = Event.Py_IsInit h.initialized ∨
    e = Event.PyGILState_Ensure ∨ e = Event.PyGILState_Release ∨
    (h.initialized = true ∧ e ∈ (run_script_steps h none s).2.2) := by
  unfold run_script at he
  by_cases hi : h.initialized = false
  · simp [hi] at he
    rcases he with rfl | rfl <;> simp [hi]
  · have hi2 : h.initialized = true := by simpa using hi
    simp [hi2, run_script_impl] at he
    rcases he with rfl | rfl | rfl | he | rfl <;> simp [hi2, *]

theorem mem_run_client_trace (w : World) (arg : Int) (hc : session_sock w arg ≠ -1)
    (hr : (session_recv w arg).ret = .returned true) (e : Event)
    (he : e ∈ (run_client w arg).trace) :
    e.isConnectStep = true ∨ (∃ r, e = Event.recv (session_sock w arg) 4096 r) ∨
    e ∈ (session_script w arg).trace ∨ (∃ buf r, e = Event.send (session_sock w arg) buf r) := by
  rw [run_client_connected w arg hc hr] at he
  simp only [List.mem_append] at he
  rcases he with (he | he) | he
  · exact Or.inl (connect_client_steps _ _ e he)
  · exact Or.inr (Or.inl (recvall_loop_recvs _ _ _ e he))
  · by_cases hs : (run_script w.host (c_str (session_recv w arg).data)).success = true
    · rw [run_client_exec_ok w _ _ hs] at he
      simp only [List.mem_append, List.mem_singleton] at he
      rcases he with he | rfl
      · exact Or.inr (Or.inr (Or.inl he))
      · exact Or.inl rfl
    · have hs2 : (run_script w.host (c_str (session_recv w arg).data)).success = false := by
        simpa using hs
      obtain ⟨_, k, hk, htr⟩ := run_client_exec_failed w (session_sock w arg) _ hs2
      rw [htr] at he
      simp only [List.mem_append] at he
      rcases he with (he | he) | he
      · exact Or.inr (Or.inr (Or.inl he))
      · exact Or.inr (Or.inr (Or.inr (sendall_loop_sends _ _ _ _ e he)))
      · rcases hk with rfl | rfl
        · simp at he
        · simp at he; subst he; exact Or.inl rfl

/-- C3 as the code has it: when the bytes `recvall` accumulated contain no
zero byte, `run_script` and the compiler are handed exactly those bytes; in
general the compiler, which reads a NUL-terminated string, is handed the bytes
before the first zero byte, and it is reached whenever the runtime is
initialized and the three steps before it succeed. -/
theorem script_handed_over (w : World) (arg : Int) (hc : session_sock w arg ≠ -1)
    (hr : (session_recv w arg).ret = .returned true) :
    ((0 : UInt8) ∉ (session_recv w arg).data →
      c_str (session_recv w arg).data = (session_recv w arg).data ∧
      Event.call_run_script (session_recv w arg).data ∈ (run_client w arg).trace ∧
      ∀ s, Event.call_run_script s ∈ (run_client w arg).trace →
        s = (session_recv w arg).data) ∧
    (∀ text f ok, Event.Py_CompileString text f ok ∈ (run_client w arg).trace →
      text = c_str (session_recv w arg).data) ∧
    (w.host.initialized = true → w.host.importBuiltins = none → w.host.dictNew = none →
      w.host.setItem = none →
      ∃ ok, Event.Py_CompileString (c_str (session_recv w arg).data)
        "_memray_attach_hook.py" ok ∈ (run_client w arg).trace) := by
  have hsub : ∀ e ∈ (session_script w arg).trace, e ∈ (run_client w arg).trace := by
    intro e he
    rw [run_client_connected w arg hc hr]
    by_cases hs : (run_script w.host (c_str (session_recv w arg).data)).success = true
    · rw [run_client_exec_ok w _ _ hs]
      simp only [List.mem_append]
      exact Or.inr (Or.inl he)
    · have hs2 : (run_script w.host (c_str (session_recv w arg).data)).success = false := by
        simpa using hs
      obtain ⟨_, k, _, htr⟩ := run_client_exec_failed w (session_sock w arg) _ hs2
      rw [htr]
      simp only [List.mem_append]
      exact Or.inr (Or.inl (Or.inl he))
  have hcall : Event.call_run_script (c_str (session_recv w arg).data)
      ∈ (session_script w arg).trace := by
    unfold session_script run_script
    split <;> simp
  refine ⟨?_, ?_, ?_⟩
  · intro h0
    have hcs := c_str_of_no_nul _ h0
    refine ⟨hcs, ?_, ?_⟩
    · have := hsub _ hcall
      rwa [hcs] at this
    · intro s hs
      rcases mem_run_client_trace w arg hc hr _ hs with h | ⟨r, h⟩ | h | ⟨b, r, h⟩
      · simp [Event.isConnectStep] at h
      · simp at h
      · rcases mem_run_script_trace _ _ _ h with h | h | h | h | ⟨_, h⟩
        · simp only [Event.call_run_script.injEq] at h
          rw [h, hcs]
        · simp at h
        · simp at h
        · simp at h
        · have := (run_script_steps_stage _ _ _ _ h).1
          simp [Event.stage] at this
      · simp at h
  · intro text f ok hm
    rcases mem_run_client_trace w arg hc hr _ hm with h | ⟨r, h⟩ | h | ⟨b, r, h⟩
    · simp [Event.isConnectStep] at h
    · simp at h
    · rcases mem_run_script_trace _ _ _ h with h | h | h | h | ⟨_, h⟩
      · simp at h
      · simp at h
      · simp at h
      · simp at h
      · rw [← c_str_idem]; exact (run_script_steps_stage _ _ _ _ h).2 text f ok rfl
    · simp at h
  · intro hi h1 h2 h3
    have : ∃ ok, Event.Py_CompileString (c_str (session_recv w arg).data)
        "_memray_attach_hook.py" ok ∈ (session_script w arg).trace := by
      unfold session_script run_script
      simp only [hi, run_script_impl, run_script_steps, h1, h2, h3]
      cases h4 : w.host.compile (c_str (c_str (session_recv w arg).data)) <;>
        cases h5 : w.host.eval (c_str (c_str (session_recv w arg).data)) <;>
        simp [c_str_idem]
    obtain ⟨ok, hok⟩ := this
    exact ⟨ok, hsub _ hok⟩

theorem script_handed_over_witness :
    Event.call_run_script (ascii "raise E()") ∈ (run_client world_empty_repr 0).trace ∧
    ∃ ok, Event.Py_CompileString (c_str (session_recv world_empty_repr 0).data)
      "_memray_attach_hook.py" ok ∈ (run_client world_empty_repr 0).trace :=
  ⟨((script_handed_over world_empty_repr 0 (by decide) (by decide)).1 (by decide)).2.1,
   (script_handed_over world_empty_repr 0 (by decide) (by decide)).2.2 rfl rfl rfl rfl⟩

/-- C7: when the runtime is not initialized, `run_script` returns false with
the text "Python is not initialized" for every script, having called neither
`PyGILState_Ensure` nor any step of `run_script_impl`; in a session that
connected and received its script, the `::send` calls of the run are those of
`sendall` on that text, and when `sendall` returns true the bytes accepted are
that text. -/
theorem not_initialized_short_circuit (w : World) (arg : Int) (script : Bytes)
    (hi : w.host.initialized = false) :
    run_script w.host script =
      ⟨false, ascii "Python is not initialized", none,
       [Event.call_run_script script, Event.Py_IsInit false]⟩ ∧
    (session_sock w arg ≠ -1 → (session_recv w arg).ret = .returned true →
      Event.PyGILState_Ensure ∉ (run_client w arg).trace ∧
      (∀ e ∈ (run_client w arg).trace, e.stage ≠ 4) ∧
      (run_client w arg).trace.filter Event.isSend =
        (sendall (session_sock w arg) (ascii "Python is not initialized") w.sends).2 ∧
      ((sendall (session_sock w arg) (ascii "Python is not initialized") w.sends).1
          = .returned true →
        (run_client w arg).ret = .returned () ∧
        accepted (run_client w arg).trace = ascii "Python is not initialized")) := by
  have hrs : ∀ s, run_script w.host s =
      ⟨false, ascii "Python is not initialized", none,
       [Event.call_run_script s, Event.Py_IsInit false]⟩ := by
    intro s
    simp [run_script, hi]
  refine ⟨hrs script, ?_⟩
  intro hc hr
  have hss : session_script w arg = ⟨false, ascii "Python is not initialized", none,
       [Event.call_run_script (c_str (session_recv w arg).data), Event.Py_IsInit false]⟩ :=
    hrs _
  have hmem := mem_run_client_trace w arg hc hr
  have hfail : (session_script w arg).success = false := by rw [hss]
  have hout := (outcome_by_bytes_core w arg hc hr).2 hfail
  have hmsg : (session_script w arg).errmsg = ascii "Python is not initialized" := by rw [hss]
  rw [hmsg] at hout
  refine ⟨?_, ?_, hout.1, ?_⟩
  · intro he
    rcases hmem _ he with h | ⟨r, h⟩ | h | ⟨b, r, h⟩
    · simp [Event.isConnectStep] at h
    · simp at h
    · rw [hss] at h; simp at h
    · simp at h
  · intro e he h4
    rcases hmem _ he with h | ⟨r, h⟩ | h | ⟨b, r, h⟩
    · cases e <;> simp [Event.isConnectStep, Event.stage] at h h4
    · subst h; simp [Event.stage] at h4
    · rw [hss] at h; simp at h
      rcases h with rfl | rfl <;> simp [Event.stage] at h4
    · subst h; simp [Event.stage] at h4
  · intro ht
    constructor
    · rw [hout.2.1 true ht]
    · rw [← accepted_filter, hout.1]
      exact sendall_loop_true _ _ _ ht

theorem not_initialized_short_circuit_witness :
    run_script world_not_ready.host [105] =
      ⟨false, ascii "Python is not initialized", none,
       [Event.call_run_script [105], Event.Py_IsInit false]⟩ ∧
    accepted (run_client world_not_ready 0).trace = ascii "Python is not initialized" :=
  ⟨(not_initialized_short_circuit world_not_ready 0 [105] rfl).1,
   (((not_initialized_short_circuit world_not_ready 0 [105] rfl).2 (by decide)
      (by decide)).2.2.2 (by decide)).2⟩

/-- C9: `spawn_client` returns null exactly when `pthread_create` returned 0
and the fixed text otherwise; the calling thread makes no call but
`pthread_create`; the result is the same in any two worlds with the same
`pthread_create` answer, and it is null with the thread created although the
worker then fails to connect. -/
theorem spawn_client_result (w : World) (port : Int) :
    ((spawn_client w port).ret = none ↔ w.create_rc = 0) ∧
    ((spawn_client w port).ret ≠ none →
      (spawn_client w port).ret = some "Failed to create thread!") ∧
    (spawn_client w port).caller = [Event.pthread_create port w.create_rc] ∧
    (∀ w2 : World, w2.create_rc = w.create_rc →
      (spawn_client w2 port).ret = (spawn_client w port).ret) ∧
    (w.create_rc = 0 → session_sock w port = -1 →
      (spawn_client w port).ret = none ∧
      ∃ run, (spawn_client w port).worker = some run ∧ run.ret = .returned () ∧
        run.trace.getLast? = some (Event.cerr "memray attach failed!") ∧
        ∀ e ∈ run.trace, e.stage ≠ 1 ∧ e.stage ≠ 4 ∧ e.isSend = false) := by
  by_cases h : w.create_rc = 0
  · refine ⟨by simp [spawn_client, h], by simp [spawn_client, h], by simp [spawn_client, h],
      ?_, ?_⟩
    · intro w2 h2
      simp [spawn_client, h, h2]
    · intro _ hs
      refine ⟨by simp [spawn_client, h], thread_body w port, by simp [spawn_client, h], ?_⟩
      simp only [session_sock] at hs
      have hrc : run_client w port =
          ⟨.returned (), (connect_client w.addrs port).2 ++ [Event.cerr "memray attach failed!"]⟩ := by
        simp [run_client, hs]
      have hcs := connect_client_steps w.addrs port
      have hst : ∀ e ∈ (run_client w port).trace,
          e.stage ≠ 1 ∧ e.stage ≠ 4 ∧ e.isSend = false := by
        intro e he
        rw [hrc] at he
        simp only [List.mem_append, List.mem_singleton] at he
        rcases he with he | rfl
        · have := hcs e he
          cases e <;> simp [Event.isConnectStep, Event.stage, Event.isSend] at this ⊢
        · simp [Event.stage, Event.isSend]
      by_cases hd : w.detach_rc = 0
      · simp only [thread_body, hd, ne_eq, not_true_eq_false, if_false]
        refine ⟨by rw [hrc], ?_, ?_⟩
        · rw [hrc]
          exact List.getLast?_concat (Event.pthread_detach 0 :: (connect_client w.addrs port).2)
        intro e he
        simp only [List.mem_cons] at he
        rcases he with rfl | he
        · simp [Event.stage, Event.isSend]
        · exact hst e he
      · simp only [thread_body, hd, ne_eq, not_false_eq_true, if_true]
        refine ⟨by rw [hrc], ?_, ?_⟩
        · rw [hrc]
          exact List.getLast?_concat (Event.pthread_detach w.detach_rc ::
            Event.cerr "Failed to detach thread!" :: (connect_client w.addrs port).2)
        intro e he
        simp only [List.mem_cons] at he
        rcases he with rfl | rfl | he
        · simp [Event.stage, Event.isSend]
        · simp [Event.stage, Event.isSend]
        · exact hst e he
  · refine ⟨by simp [spawn_client, h], by simp [spawn_client, h], by simp [spawn_client, h],
      ?_, ?_⟩
    · intro w2 h2
      simp [spawn_client, h, h2]
    · intro h0
      exact absurd h0 h

theorem spawn_client_result_witness :
    (spawn_client world_no_listener 8000).ret = none ∧
    (spawn_client world_not_ready 8000).ret = (spawn_client world_no_listener 8000).ret :=
  ⟨((spawn_client_result world_no_listener 8000).2.2.2.2 rfl (by decide)).1,
   (spawn_client_result world_no_listener 8000).2.2.2.1 world_not_ready rfl⟩

/-! ## Order of the steps and the interpreter lock -/

end Memray
